import Mathlib

/-!
# Verification of PSR_B0943_10: resolution cache and enrichment pipeline

Shallow embedding of the program's core (`src/cache.rs`, `src/apis.rs`,
`src/history.rs`, `src/parsing.rs`).  Network and database calls are modelled
by passing their outcome as an explicit argument; each lookup also reports
how many times the external fetch was invoked and how many cache stores it
performed, so that the memoization claims can be stated exactly.
-/

set_option autoImplicit false
set_option linter.unusedVariables false

namespace PSR

/- ## Basic string/hex helpers (Rust `hex::encode`, `trim_start_matches`) -/

/-- One lowercase hex digit, as produced by Rust's `hex::encode`. -/
def hexDigitChar (d : Nat) : Char :=
  if d < 10 then Char.ofNat (48 + d) else Char.ofNat (87 + d)

/-- Two lowercase hex digits for one byte. -/
def byteToHex (b : Nat) : String :=
  String.mk [hexDigitChar (b / 16 % 16), hexDigitChar (b % 16)]

/-- `hex::encode` on a byte slice: lowercase hex, no prefix. -/
def hexEncodeBytes (bs : List Nat) : String :=
  String.join (bs.map byteToHex)

/-- `hex::encode` applied to a `&str` hex-encodes the string's bytes
(for the ASCII strings that occur here, the bytes are the char codes). -/
def hexEncodeString (s : String) : String :=
  hexEncodeBytes (s.data.map Char.toNat)

/-- Rust `str::trim_start_matches("0x")`, the only pattern the source uses
(src/apis.rs line 71, src/cache.rs line 42): repeatedly removes a leading
`"0x"` while present. -/
def trimStart0xList : List Char → List Char
  | '0' :: 'x' :: rest => trimStart0xList rest
  | other => other

/-- Rust `str::trim_start_matches("0x")` on `String`s. -/
def trimStartMatches0x (s : String) : String :=
  String.mk (trimStart0xList s.data)

/- ## The cache data model (`src/cache.rs`)

`HashMap<String, (VisitNote, V)>` is modelled as an association list with
first-match lookup and replace-on-insert, matching `HashMap::get` /
`HashMap::insert` behaviour for the keys used. -/

/-- `VisitNote` (src/cache.rs / src/history.rs): outcome marker of a prior
lookup attempt. -/
inductive VisitNote where
  | NotVisited
  | PriorSuccess
  | PriorFailure
deriving DecidableEq, Repr

/-- One cache map: keys to `(VisitNote, value)` entries. -/
abbrev CacheMap (α : Type) := List (String × (VisitNote × α))

/-- `HashMap::get`: first entry with the given key. -/
def cacheGet {α : Type} (m : CacheMap α) (k : String) : Option (VisitNote × α) :=
  match m with
  | [] => none
  | (k', v) :: rest => if k' = k then some v else cacheGet rest k

/-- `HashMap::insert`: replace the entry for the key, or add one. -/
def cacheInsert {α : Type} (m : CacheMap α) (k : String) (v : VisitNote × α) :
    CacheMap α :=
  match m with
  | [] => [(k, v)]
  | (k', v') :: rest =>
      if k' = k then (k, v) :: rest else (k', v') :: cacheInsert rest k v

/-- Result of one cache lookup-or-fetch call: the returned value, the map
afterwards, how many external fetches were made, and how many stores. -/
structure Lookup (α : Type) where
  result : Option α
  cache : CacheMap α
  fetches : Nat
  stores : Nat
deriving DecidableEq, Repr

/-- `Cache::try_sig` (src/cache.rs lines 92-133).  The mode-selected fetch
(`sig_to_text` locally or `method_from_fourbyte_api` remotely, both of type
`Result<Option<String>>`) is modelled by its outcome `fetch`; it is consulted
(counted) only on the miss path, exactly as in the source. -/
def try_sig (m : CacheMap String) (sig : String)
    (fetch : Except String (Option String)) : Lookup String :=
  match cacheGet m sig with
  | some (VisitNote.PriorSuccess, value) => ⟨some value, m, 0, 0⟩
  | some (VisitNote.PriorFailure, _) => ⟨none, m, 0, 0⟩
  | _ =>
    match fetch with
    | Except.error _ =>
        ⟨none, cacheInsert m sig (VisitNote.PriorFailure, ""), 1, 1⟩
    | Except.ok (some t) =>
        ⟨some t, cacheInsert m sig (VisitNote.PriorSuccess, t), 1, 1⟩
    | Except.ok none =>
        ⟨none, cacheInsert m sig (VisitNote.PriorFailure, ""), 1, 1⟩

/-- `Cache::try_nametags` (src/cache.rs lines 135-167).  The key is
`hex::encode(address)`; the fetch is `address_nametags`, of type
`Result<Vec<String>>` — note there is no "no data" variant: any `Ok` list
(including the empty one) is stored as a success. -/
def try_nametags (m : CacheMap (List String)) (address : List Nat)
    (fetch : Except String (List String)) : Lookup (List String) :=
  match cacheGet m (hexEncodeBytes address) with
  | some (VisitNote.PriorSuccess, value) => ⟨some value, m, 0, 0⟩
  | some (VisitNote.PriorFailure, _) => ⟨none, m, 0, 0⟩
  | _ =>
    match fetch with
    | Except.ok n =>
        ⟨some n,
          cacheInsert m (hexEncodeBytes address) (VisitNote.PriorSuccess, n),
          1, 1⟩
    | Except.error _ =>
        ⟨none,
          cacheInsert m (hexEncodeBytes address) (VisitNote.PriorFailure, [""]),
          1, 1⟩

/-- `Cache::try_abi` (src/cache.rs lines 34-89).  The key is
`hex::encode(address).trim_start_matches("0x")`; the fetch is `get_abi`,
of type `Result<Option<String>>`, modelled by its outcome. -/
def try_abi (m : CacheMap String) (address : List Nat)
    (fetch : Except String (Option String)) : Lookup String :=
  match cacheGet m (trimStartMatches0x (hexEncodeBytes address)) with
  | some (VisitNote.PriorSuccess, abi) => ⟨some abi, m, 0, 0⟩
  | some (VisitNote.PriorFailure, _) => ⟨none, m, 0, 0⟩
  | _ =>
    match fetch with
    | Except.error _ =>
        ⟨none,
          cacheInsert m (trimStartMatches0x (hexEncodeBytes address))
            (VisitNote.PriorFailure, ""),
          1, 1⟩
    | Except.ok (some a) =>
        ⟨some a,
          cacheInsert m (trimStartMatches0x (hexEncodeBytes address))
            (VisitNote.PriorSuccess, a),
          1, 1⟩
    | Except.ok none =>
        ⟨none,
          cacheInsert m (trimStartMatches0x (hexEncodeBytes address))
            (VisitNote.PriorFailure, ""),
          1, 1⟩

/-- Operating mode (src/history.rs lines 35-38). -/
inductive Mode where
  | AvoidApis
  | UseApis
deriving DecidableEq, Repr

/-- Outcome of `get_abi`, together with how many remote (Sourcify) queries
and decompiler invocations it made. -/
structure AbiFetch where
  result : Except String (Option String)
  sourcify_calls : Nat
  decompile_calls : Nat
deriving Repr

/-- `get_abi` (src/cache.rs lines 176-201).  In `UseApis` mode the Sourcify
query `abi_from_sourcify_api` is modelled by its outcome `sourcify`; its
error is propagated by `?`.  On `Ok(None)` the decompiler runs and a
placeholder is returned as success.  In `AvoidApis` mode nothing external
happens and a fixed placeholder is returned as success. -/
def get_abi (mode : Mode) (sourcify : Except String (Option String)) :
    AbiFetch :=
  match mode with
  | Mode.UseApis =>
    match sourcify with
    | Except.error e => ⟨Except.error e, 1, 0⟩
    | Except.ok (some x) => ⟨Except.ok (some x), 1, 0⟩
    | Except.ok none =>
        ⟨Except.ok (some "TODO: Pull decompiled-ABI from file"), 1, 1⟩
  | Mode.AvoidApis => ⟨Except.ok (some "TODO, get TODD-ABIs"), 0, 0⟩

/-- `Result::is_ok`. -/
def isOkE {ε α : Type} : Except ε α → Bool
  | Except.ok _ => true
  | Except.error _ => false

/-- `true` when no entry of the map is marked `PriorFailure` — the state of
the `abis` map throughout a run that only ever resolves in `AvoidApis`
mode (the cache starts empty each run). -/
def noFailureEntries {α : Type} (m : CacheMap α) : Bool :=
  m.all (fun e => decide (e.2.1 ≠ VisitNote.PriorFailure))

/- ## Decimal rendering and JSON-pointer index parsing

Rust's `format!("/output/abi/{}", n)` renders `n` in decimal;
`serde_json`'s pointer lookup parses an array-index token back with
`parse_index` (rejecting a leading `+` and leading zeros). -/

/-- One decimal digit character. -/
def digitChar (d : Nat) : Char := Char.ofNat (48 + d)

/-- Decimal digits of `n`, most significant first (Rust `Display` for `usize`). -/
def natDigits (n : Nat) : List Char :=
  if h : n < 10 then [digitChar n]
  else natDigits (n / 10) ++ [digitChar (n % 10)]
termination_by n
decreasing_by exact Nat.div_lt_self (by omega) (by omega)

/-- Decimal rendering of `n` (Rust `Display` for `usize`). -/
def natToString (n : Nat) : String := String.mk (natDigits n)

/-- Value of a decimal digit character. -/
def digitVal (c : Char) : Option Nat :=
  if 48 ≤ c.toNat ∧ c.toNat ≤ 57 then some (c.toNat - 48) else none

/-- Left-to-right decimal accumulation (`usize::from_str` on digit strings). -/
def parseDecimal (cs : List Char) : Option Nat :=
  cs.foldl
    (fun acc c =>
      match acc, digitVal c with
      | some a, some d => some (a * 10 + d)
      | _, _ => none)
    (some 0)

/-- `serde_json`'s `parse_index` for a pointer token: no empty token, no
leading `+`, no leading zeros (except `"0"` itself). -/
def parseIndex (s : String) : Option Nat :=
  match s.data with
  | [] => none
  | c :: rest =>
    if c = '+' then none
    else if c = '0' ∧ rest ≠ [] then none
    else parseDecimal s.data

/- ## JSON values (`serde_json::Value`) -/

/-- `serde_json::Value`, with numbers modelled as integers (the metadata
fields that reach `summary_of_abi_from_json` are integral; nothing in the
verified claims depends on the numeric type). -/
inductive Json where
  | null
  | bool (b : Bool)
  | num (i : Int)
  | str (s : String)
  | arr (xs : List Json)
  | obj (fields : List (String × Json))

/-- First binding for a key in a JSON object (`Map::get`). -/
def objLookup : List (String × Json) → String → Option Json
  | [], _ => none
  | (k, x) :: rest, key => if k = key then some x else objLookup rest key

/-- `Value::index` for a `&str` key (`metadata["settings"]`): a lookup in an
object, and `Null` for a missing key or a non-object. -/
def indexStr (v : Json) (key : String) : Json :=
  match v with
  | Json.obj fields => (objLookup fields key).getD Json.null
  | _ => Json.null

/-- Decimal rendering of an `Int` (serde's integer `Display`). -/
def intToString (i : Int) : String :=
  if i < 0 then "-" ++ natToString i.natAbs else natToString i.toNat

/-- JSON string escaping as performed by serde's `Display`. -/
def escapeChar (c : Char) : String :=
  if c = '"' then "\\\""
  else if c = '\\' then "\\\\"
  else if c.toNat = 8 then "\\b"
  else if c.toNat = 9 then "\\t"
  else if c.toNat = 10 then "\\n"
  else if c.toNat = 12 then "\\f"
  else if c.toNat = 13 then "\\r"
  else if c.toNat < 32 then
    "\\u00" ++ String.mk [hexDigitChar (c.toNat / 16), hexDigitChar (c.toNat % 16)]
  else String.singleton c

/-- JSON string escaping over a whole string. -/
def escapeString (s : String) : String := String.join (s.data.map escapeChar)

mutual
/-- `Display` for `serde_json::Value` (compact form), used by the `{}`
formatting in `summary_of_abi_from_json`. -/
def renderJson : Json → String
  | Json.null => "null"
  | Json.bool true => "true"
  | Json.bool false => "false"
  | Json.num i => intToString i
  | Json.str s => "\"" ++ escapeString s ++ "\""
  | Json.arr xs => "[" ++ renderList xs ++ "]"
  | Json.obj fs => "\x7b" ++ renderFields fs ++ "\x7d"

/-- Comma-separated rendering of array elements. -/
def renderList : List Json → String
  | [] => ""
  | [x] => renderJson x
  | x :: y :: rest => renderJson x ++ "," ++ renderList (y :: rest)

/-- Comma-separated rendering of object fields. -/
def renderFields : List (String × Json) → String
  | [] => ""
  | [(k, v)] => "\"" ++ escapeString k ++ "\":" ++ renderJson v
  | (k, v) :: f :: rest =>
      "\"" ++ escapeString k ++ "\":" ++ renderJson v ++ "," ++
        renderFields (f :: rest)
end

/-- `Value::pointer` navigation.  The Rust code calls
`metadata.pointer("/output/abi/<n>")`; serde splits that path on `/` after
the leading slash (the tokens here contain no `~` escapes) and walks the
document: object tokens by key lookup, array tokens via `parse_index`.
This embeds the walk on the split token list. -/
def pointerNav : Json → List String → Option Json
  | v, [] => some v
  | Json.obj fields, tok :: rest =>
    (match objLookup fields tok with
     | some x => pointerNav x rest
     | none => none)
  | Json.arr xs, tok :: rest =>
    (match parseIndex tok with
     | some i =>
       match xs.get? i with
       | some x => pointerNav x rest
       | none => none
     | none => none)
  | _, _ :: _ => none

/- ## `parsing.rs`: summary_of_abi_from_json -/

/-- Length of `metadata["output"]["abi"]` when it is an array, else 0
(the `n_funcs` computation, src/parsing.rs lines 13-16). -/
def abiArrayLen (metadata : Json) : Nat :=
  match indexStr (indexStr metadata "output") "abi" with
  | Json.arr a => a.length
  | _ => 0

/-- The per-function line appended for one abi entry
(src/parsing.rs lines 22-29). -/
def funcSummary (func : Json) : String :=
  "\n\t" ++ renderJson (indexStr func "type") ++ " " ++
    renderJson (indexStr func "stateMutability") ++ " " ++
    renderJson (indexStr func "name") ++ ".\n\t\tInputs: " ++
    renderJson (indexStr func "inputs") ++ "\n\t\tOutputs: " ++
    renderJson (indexStr func "outputs")

/-- The `for n in 0..n_funcs` loop of `summary_of_abi_from_json`:
each index is looked up by JSON pointer and its line appended; a failed
pointer lookup is an error (`ok_or_else` + `?`). -/
def summaryLoop (metadata : Json) (acc : String) : List Nat → Except String String
  | [] => Except.ok acc
  | n :: rest =>
    match pointerNav metadata ["output", "abi", natToString n] with
    | none =>
        Except.error ("Could not read abi from json at loc: /output/abi/" ++
          natToString n)
    | some func => summaryLoop metadata (acc ++ funcSummary func) rest

/-- `summary_of_abi_from_json` (src/parsing.rs lines 10-33). -/
def summary_of_abi_from_json (metadata : Json) : Except String String :=
  let contract_name := indexStr (indexStr metadata "settings") "compilationTarget"
  let summary := "Contract: " ++ renderJson contract_name
  summaryLoop metadata summary (List.range (abiArrayLen metadata))

/-- Rust's `.unwrap()` on the `summary_of_abi_from_json` result
(src/apis.rs lines 93 and 107): panics on `Err`.  The `Err` branch is proved
unreachable (claim C10); the marker string stands for the panic. -/
def unwrapSummary (r : Except String String) : String :=
  match r with
  | Except.ok s => s
  | Except.error _ => "PANIC: called unwrap on an Err value"

/- ## `apis.rs`: the two remote endpoints -/

/-- One result row of the 4byte.directory event-signatures response. -/
structure FourByteResponse where
  hex_signature : String
  text_signature : String
deriving DecidableEq, Repr

/-- The candidate scan inside `method_from_fourbyte_api`
(src/apis.rs lines 69-75): for each result row the code compares
`r.hex_signature.trim_start_matches("0x")` with `hex::encode(topic)` —
note `topic` is a `&str`, so `hex::encode` encodes its ASCII bytes. -/
def fourByteScan (topic : String) : List FourByteResponse → Option String
  | [] => none
  | r :: rest =>
    let target := hexEncodeString topic
    let candidate_full_hash := trimStartMatches0x r.hex_signature
    if candidate_full_hash = target then some r.text_signature
    else fourByteScan topic rest

/-- `method_from_fourbyte_api` (src/apis.rs lines 56-77).  The HTTP
query/parse is modelled by its outcome `page` (errors propagate via `?`);
on success the result rows are scanned and `Ok(None)` is returned when no
candidate matches. -/
def method_from_fourbyte_api (topic : String)
    (page : Except String (List FourByteResponse)) :
    Except String (Option String) :=
  match page with
  | Except.error e => Except.error e
  | Except.ok results => Except.ok (fourByteScan topic results)

/-- Outcome of one HTTP GET: a transport failure, or a response with a
status code and (already parsed) JSON body. -/
inductive HttpOutcome where
  | fail (msg : String)
  | resp (status : Nat) (body : Json)

/-- `abi_from_sourcify_api` (src/apis.rs lines 80-113), with `a` the request
path (`<checksummed-address>/metadata.json`; checksumming is an external
crate) and the two HTTP GETs modelled by their outcomes.  A transport
failure on either GET hits `bail!`; a 200-status response is summarised
(with the `.unwrap()` of the source); a non-200 status on the full-match
endpoint falls through to the partial-match endpoint; a non-200 status
there yields `Ok(None)`. -/
def abi_from_sourcify_api (a : String) (full partialResp : HttpOutcome) :
    Except String (Option String) :=
  match full with
  | HttpOutcome.fail _ => Except.error ("The request failed for " ++ a)
  | HttpOutcome.resp status v =>
    if status = 200 then
      Except.ok (some (unwrapSummary (summary_of_abi_from_json v)))
    else
      match partialResp with
      | HttpOutcome.fail _ => Except.error ("The request failed for " ++ a)
      | HttpOutcome.resp s2 v2 =>
        if s2 = 200 then
          Except.ok (some (unwrapSummary (summary_of_abi_from_json v2)))
        else Except.ok none

/- ## `history.rs`: pipeline data model

Opaque external data is reduced to what the pipeline reads from it:
a transaction body is consumed only through its `hash`, a receipt only
through its `logs`, a log through its `address` and `topics`.
Transaction ids (`AAIAppearanceTx`) are opaque keys, modelled as `Nat`. -/

/-- A transaction body (`web3::types::Transaction`) as consumed here. -/
structure Transaction where
  hash : Nat
deriving DecidableEq, Repr

/-- A log (`web3::types::Log`) as consumed here: emitting address (20 bytes)
and the topics (32-byte values). -/
structure Log where
  address : List Nat
  topics : List (List Nat)
deriving DecidableEq, Repr

/-- A transaction receipt as consumed here. -/
structure Receipt where
  logs : List Log
deriving DecidableEq, Repr

/-- `Contract` (src/data.rs lines 38-51). -/
structure Contract where
  address : String
  source_code_metadata_link : Option String
  bytecode : List Nat
  source_code : String
  abi : Option String
  decompiled : Bool
deriving DecidableEq, Repr

/-- `LoggedEvent` (src/data.rs lines 11-22). -/
structure LoggedEvent where
  raw : Log
  topic_zero : String
  contract : Contract
  name : Option String
  nametags : Option (List String)
deriving DecidableEq, Repr

/-- `Cache` (src/cache.rs lines 17-30): the three maps. -/
structure Cache where
  signatures : CacheMap String
  nametags : CacheMap (List String)
  abis : CacheMap String
deriving DecidableEq, Repr

/-- `TxInfo` (src/data.rs lines 26-35). -/
structure TxInfo where
  location : Nat
  description : Option Transaction
  receipt : Option Receipt
  events : Option (List LoggedEvent)
deriving DecidableEq, Repr

/-- The pipeline state touched by the stages of `AddressHistory`
(src/history.rs lines 54-63): the transaction list and the cache. -/
structure AddressHistory where
  transactions : List TxInfo
  cache : Cache
deriving DecidableEq, Repr

/-- The external outcomes one `examine_log` call can observe: the
`eth_getCode` RPC, `cid_from_runtime_bytecode`, and the three fetches
behind the cache lookups (mode-selected in the source; the oracle is
their outcome). -/
structure LogOracles where
  getCode : Except String (List Nat)
  cidResult : Except String (Option String)
  abiFetch : Except String (Option String)
  sigFetch : Except String (Option String)
  nameFetch : Except String (List String)

/-- Result of one `examine_log` call: the returned value, the cache
afterwards, and how often each external source was consulted. -/
structure ExamineResult where
  value : Except String (Option LoggedEvent)
  cache : Cache
  codeCalls : Nat
  sigFetches : Nat
  abiFetches : Nat
  nameFetches : Nat

/-- `examine_log` (src/history.rs lines 280-338).  A log with no `topic[0]`
returns `Ok(None)` before any external call.  Otherwise the bytecode is
fetched (`?` propagates its error), the metadata-CID extraction failure is
downgraded to `None`, and the three cache lookups run in source order
(`try_abi`, `try_sig`, `try_nametags`), each updating its map. -/
def examine_log (log : Log) (o : LogOracles) (cache : Cache) : ExamineResult :=
  match log.topics.get? 0 with
  | none => ⟨Except.ok none, cache, 0, 0, 0, 0⟩
  | some t =>
    let topic_zero := (hexEncodeBytes t).take 8
    match o.getCode with
    | Except.error e => ⟨Except.error e, cache, 1, 0, 0, 0⟩
    | Except.ok bytecode =>
      let cid : Option String :=
        match o.cidResult with
        | Except.ok c => c
        | Except.error _ => none
      let address := hexEncodeBytes log.address
      let aRes := try_abi cache.abis log.address o.abiFetch
      let sRes := try_sig cache.signatures topic_zero o.sigFetch
      let nRes := try_nametags cache.nametags log.address o.nameFetch
      let contract : Contract :=
        ⟨address, cid, bytecode, "TODO: Path to source code.", aRes.result, false⟩
      let event : LoggedEvent := ⟨log, topic_zero, contract, sRes.result, nRes.result⟩
      ⟨Except.ok (some event), ⟨sRes.cache, nRes.cache, aRes.cache⟩,
        1, sRes.fetches, aRes.fetches, nRes.fetches⟩

/-- The per-receipt log loop of `decode_logs` (src/history.rs lines
205-210): each log is examined (`?` propagates an error), a `None` event is
skipped, the cache threads through. -/
def logsLoop (env : Log → LogOracles) :
    List Log → Cache → Except String (List LoggedEvent × Cache)
  | [], c => Except.ok ([], c)
  | l :: rest, c =>
    let er := examine_log l (env l) c
    match er.value with
    | Except.error e => Except.error e
    | Except.ok none => logsLoop env rest er.cache
    | Except.ok (some e) =>
      match logsLoop env rest er.cache with
      | Except.error e2 => Except.error e2
      | Except.ok (es, c') => Except.ok (e :: es, c')

/-- The cap test at the top of each stage loop: `if i > cap { break }`. -/
def breakAt (cap : Option Nat) (i : Nat) : Bool :=
  match cap with
  | some c => decide (c < i)
  | none => false

/-- The loop of `get_transaction_data` (src/history.rs lines 128-148):
per kept item the body is fetched (`?` on transport error, hard error when
the node has no data), and a fresh `TxInfo` with only `location` and
`description` set is accumulated. -/
def gtdLoop (fetchTx : Nat → Except String (Option Transaction))
    (cap : Option Nat) : Nat → List TxInfo → Except String (List TxInfo)
  | _, [] => Except.ok []
  | i, tx :: rest =>
    if breakAt cap i then Except.ok []
    else
      match fetchTx tx.location with
      | Except.error e => Except.error e
      | Except.ok none => Except.error "No data for this transaction id."
      | Except.ok (some tx_data) =>
        match gtdLoop fetchTx cap (i + 1) rest with
        | Except.error e => Except.error e
        | Except.ok l => Except.ok (⟨tx.location, some tx_data, none, none⟩ :: l)

/-- `AddressHistory::get_transaction_data` (src/history.rs lines 124-154):
on success the `transactions` field is replaced by the loop's accumulation;
on error the state is unchanged (the assignment is never reached). -/
def get_transaction_data (fetchTx : Nat → Except String (Option Transaction))
    (cap : Option Nat) (h : AddressHistory) : Except String AddressHistory :=
  match gtdLoop fetchTx cap 0 h.transactions with
  | Except.error e => Except.error e
  | Except.ok txs => Except.ok { h with transactions := txs }

/-- The loop of `get_receipts` (src/history.rs lines 164-182): an item with
no `description` is skipped (`let ... else continue`); otherwise the receipt
is fetched by the body's hash (hard error when absent) and the cloned item
with `receipt` set is accumulated. -/
def grLoop (fetchReceipt : Nat → Except String (Option Receipt))
    (cap : Option Nat) : Nat → List TxInfo → Except String (List TxInfo)
  | _, [] => Except.ok []
  | i, tx :: rest =>
    if breakAt cap i then Except.ok []
    else
      match tx.description with
      | none => grLoop fetchReceipt cap (i + 1) rest
      | some description =>
        match fetchReceipt description.hash with
        | Except.error e => Except.error e
        | Except.ok none => Except.error "No receipt for this transaction hash."
        | Except.ok (some r) =>
          match grLoop fetchReceipt cap (i + 1) rest with
          | Except.error e => Except.error e
          | Except.ok l => Except.ok ({ tx with receipt := some r } :: l)

/-- `AddressHistory::get_receipts` (src/history.rs lines 160-188). -/
def get_receipts (fetchReceipt : Nat → Except String (Option Receipt))
    (cap : Option Nat) (h : AddressHistory) : Except String AddressHistory :=
  match grLoop fetchReceipt cap 0 h.transactions with
  | Except.error e => Except.error e
  | Except.ok txs => Except.ok { h with transactions := txs }

/-- The loop of `decode_logs` (src/history.rs lines 198-214): an item with
no `receipt` is skipped; otherwise its logs are enriched through the cache
(errors propagate) and the cloned item with `events` set is accumulated. -/
def dlLoop (env : Log → LogOracles) (cap : Option Nat) :
    Nat → List TxInfo → Cache → Except String (List TxInfo × Cache)
  | _, [], c => Except.ok ([], c)
  | i, tx :: rest, c =>
    if breakAt cap i then Except.ok ([], c)
    else
      match tx.receipt with
      | none => dlLoop env cap (i + 1) rest c
      | some receipt =>
        match logsLoop env receipt.logs c with
        | Except.error e => Except.error e
        | Except.ok (events, c') =>
          match dlLoop env cap (i + 1) rest c' with
          | Except.error e => Except.error e
          | Except.ok (l, c'') =>
              Except.ok ({ tx with events := some events } :: l, c'')

/-- `AddressHistory::decode_logs` (src/history.rs lines 194-220); the
`mode` argument of the source selects which fetches back the cache lookups
and is folded into the per-log oracles. -/
def decode_logs (env : Log → LogOracles) (cap : Option Nat)
    (h : AddressHistory) : Except String AddressHistory :=
  match dlLoop env cap 0 h.transactions h.cache with
  | Except.error e => Except.error e
  | Except.ok (txs, c) => Except.ok ⟨txs, c⟩

/-! ## Map lemmas -/

@[simp] theorem cacheGet_insert_self {α : Type} (m : CacheMap α) (k : String)
    (v : VisitNote × α) : cacheGet (cacheInsert m k v) k = some v := by
  induction m with
  | nil => simp [cacheInsert, cacheGet]
  | cons e rest ih =>
    obtain ⟨k', v'⟩ := e
    by_cases h : k' = k <;> simp [cacheInsert, cacheGet, h, ih]

theorem cacheGet_insert_other {α : Type} (m : CacheMap α) (k k' : String)
    (v : VisitNote × α) (hne : k' ≠ k) :
    cacheGet (cacheInsert m k v) k' = cacheGet m k' := by
  have hne' : k ≠ k' := fun h => hne h.symm
  induction m with
  | nil => simp [cacheInsert, cacheGet, hne']
  | cons e rest ih =>
    obtain ⟨k0, v0⟩ := e
    by_cases h : k0 = k
    · subst h
      simp [cacheInsert, cacheGet, hne']
    · simp [cacheInsert, cacheGet, h, ih]

theorem cacheGet_mem {α : Type} (m : CacheMap α) (k : String)
    (p : VisitNote × α) (h : cacheGet m k = some p) : (k, p) ∈ m := by
  induction m with
  | nil => simp [cacheGet] at h
  | cons e rest ih =>
    obtain ⟨k0, v0⟩ := e
    simp only [cacheGet] at h
    split at h
    · next heq =>
        cases h
        subst heq
        exact List.mem_cons_self _ _
    · exact List.mem_cons_of_mem _ (ih h)

/-! ## Lookup-or-fetch lemmas (shared by several claims) -/

theorem try_sig_hit_success (m : CacheMap String) (k v : String)
    (f : Except String (Option String))
    (h : cacheGet m k = some (VisitNote.PriorSuccess, v)) :
    try_sig m k f = ⟨some v, m, 0, 0⟩ := by
  simp [try_sig, h]

theorem try_sig_hit_failure (m : CacheMap String) (k v : String)
    (f : Except String (Option String))
    (h : cacheGet m k = some (VisitNote.PriorFailure, v)) :
    try_sig m k f = ⟨none, m, 0, 0⟩ := by
  simp [try_sig, h]

theorem try_sig_fetches_le_one (m : CacheMap String) (k : String)
    (f : Except String (Option String)) : (try_sig m k f).fetches ≤ 1 := by
  unfold try_sig
  split
  · simp
  · simp
  · split <;> simp

theorem try_sig_terminal_after (m : CacheMap String) (k : String)
    (f : Except String (Option String)) :
    ∃ p, cacheGet (try_sig m k f).cache k = some p ∧
      p.1 ≠ VisitNote.NotVisited := by
  unfold try_sig
  split
  · next v heq => exact ⟨_, heq, by simp⟩
  · next v heq => exact ⟨_, heq, by simp⟩
  · split
    · exact ⟨(VisitNote.PriorFailure, ""), cacheGet_insert_self _ _ _, by simp⟩
    · next t =>
        exact ⟨(VisitNote.PriorSuccess, t), cacheGet_insert_self _ _ _, by simp⟩
    · exact ⟨(VisitNote.PriorFailure, ""), cacheGet_insert_self _ _ _, by simp⟩

theorem try_sig_fetches_zero_of_terminal (m : CacheMap String) (k : String)
    (f : Except String (Option String)) (p : VisitNote × String)
    (hp : cacheGet m k = some p) (hterm : p.1 ≠ VisitNote.NotVisited) :
    (try_sig m k f).fetches = 0 := by
  obtain ⟨note, v⟩ := p
  cases note with
  | NotVisited => simp at hterm
  | PriorSuccess => simp [try_sig_hit_success m k v f hp]
  | PriorFailure => simp [try_sig_hit_failure m k v f hp]

theorem try_nametags_hit_success (m : CacheMap (List String))
    (addr : List Nat) (v : List String) (f : Except String (List String))
    (h : cacheGet m (hexEncodeBytes addr) = some (VisitNote.PriorSuccess, v)) :
    try_nametags m addr f = ⟨some v, m, 0, 0⟩ := by
  simp [try_nametags, h]

theorem try_nametags_hit_failure (m : CacheMap (List String))
    (addr : List Nat) (v : List String) (f : Except String (List String))
    (h : cacheGet m (hexEncodeBytes addr) = some (VisitNote.PriorFailure, v)) :
    try_nametags m addr f = ⟨none, m, 0, 0⟩ := by
  simp [try_nametags, h]

theorem try_nametags_fetches_le_one (m : CacheMap (List String))
    (addr : List Nat) (f : Except String (List String)) :
    (try_nametags m addr f).fetches ≤ 1 := by
  unfold try_nametags
  split
  · simp
  · simp
  · split <;> simp

theorem try_nametags_terminal_after (m : CacheMap (List String))
    (addr : List Nat) (f : Except String (List String)) :
    ∃ p, cacheGet (try_nametags m addr f).cache (hexEncodeBytes addr) = some p ∧
      p.1 ≠ VisitNote.NotVisited := by
  unfold try_nametags
  split
  · next v heq => exact ⟨_, heq, by simp⟩
  · next v heq => exact ⟨_, heq, by simp⟩
  · split
    · next n =>
        exact ⟨(VisitNote.PriorSuccess, n), cacheGet_insert_self _ _ _, by simp⟩
    · exact ⟨(VisitNote.PriorFailure, [""]), cacheGet_insert_self _ _ _, by simp⟩

theorem try_nametags_fetches_zero_of_terminal (m : CacheMap (List String))
    (addr : List Nat) (f : Except String (List String))
    (p : VisitNote × List String)
    (hp : cacheGet m (hexEncodeBytes addr) = some p)
    (hterm : p.1 ≠ VisitNote.NotVisited) :
    (try_nametags m addr f).fetches = 0 := by
  obtain ⟨note, v⟩ := p
  cases note with
  | NotVisited => simp at hterm
  | PriorSuccess => simp [try_nametags_hit_success m addr v f hp]
  | PriorFailure => simp [try_nametags_hit_failure m addr v f hp]

theorem try_abi_hit_success (m : CacheMap String) (addr : List Nat)
    (v : String) (f : Except String (Option String))
    (h : cacheGet m (trimStartMatches0x (hexEncodeBytes addr)) =
      some (VisitNote.PriorSuccess, v)) :
    try_abi m addr f = ⟨some v, m, 0, 0⟩ := by
  simp [try_abi, h]

theorem try_abi_hit_failure (m : CacheMap String) (addr : List Nat)
    (v : String) (f : Except String (Option String))
    (h : cacheGet m (trimStartMatches0x (hexEncodeBytes addr)) =
      some (VisitNote.PriorFailure, v)) :
    try_abi m addr f = ⟨none, m, 0, 0⟩ := by
  simp [try_abi, h]

theorem try_abi_fetches_le_one (m : CacheMap String) (addr : List Nat)
    (f : Except String (Option String)) : (try_abi m addr f).fetches ≤ 1 := by
  unfold try_abi
  split
  · simp
  · simp
  · split <;> simp

theorem try_abi_terminal_after (m : CacheMap String) (addr : List Nat)
    (f : Except String (Option String)) :
    ∃ p, cacheGet (try_abi m addr f).cache
        (trimStartMatches0x (hexEncodeBytes addr)) = some p ∧
      p.1 ≠ VisitNote.NotVisited := by
  unfold try_abi
  split
  · next v heq => exact ⟨_, heq, by simp⟩
  · next v heq => exact ⟨_, heq, by simp⟩
  · split
    · exact ⟨(VisitNote.PriorFailure, ""), cacheGet_insert_self _ _ _, by simp⟩
    · next a =>
        exact ⟨(VisitNote.PriorSuccess, a), cacheGet_insert_self _ _ _, by simp⟩
    · exact ⟨(VisitNote.PriorFailure, ""), cacheGet_insert_self _ _ _, by simp⟩

theorem try_abi_fetches_zero_of_terminal (m : CacheMap String)
    (addr : List Nat) (f : Except String (Option String))
    (p : VisitNote × String)
    (hp : cacheGet m (trimStartMatches0x (hexEncodeBytes addr)) = some p)
    (hterm : p.1 ≠ VisitNote.NotVisited) :
    (try_abi m addr f).fetches = 0 := by
  obtain ⟨note, v⟩ := p
  cases note with
  | NotVisited => simp at hterm
  | PriorSuccess => simp [try_abi_hit_success m addr v f hp]
  | PriorFailure => simp [try_abi_hit_failure m addr v f hp]

/-- C1: in each of the three cache maps, an entry marked `PriorSuccess`
makes the lookup return the stored value and an entry marked `PriorFailure`
makes it return `None`, in both cases without touching the fetch or the
map; two consecutive lookups of the same key invoke the fetch at most once;
and a `PriorFailure` entry is never replaced within the run. -/
theorem claim_C1_cache_memoization
    (msig : CacheMap String) (mname : CacheMap (List String))
    (mabi : CacheMap String) (sig : String) (addr addrA : List Nat)
    (v : String) (vs : List String) (w : String)
    (f g : Except String (Option String))
    (fn gn : Except String (List String))
    (fa ga : Except String (Option String)) :
    (cacheGet msig sig = some (VisitNote.PriorSuccess, v) →
      try_sig msig sig f = ⟨some v, msig, 0, 0⟩) ∧
    (cacheGet msig sig = some (VisitNote.PriorFailure, v) →
      try_sig msig sig f = ⟨none, msig, 0, 0⟩) ∧
    (try_sig msig sig f).fetches +
      (try_sig (try_sig msig sig f).cache sig g).fetches ≤ 1 ∧
    (cacheGet msig sig = some (VisitNote.PriorFailure, v) →
      cacheGet (try_sig msig sig f).cache sig =
        some (VisitNote.PriorFailure, v)) ∧
    (cacheGet mname (hexEncodeBytes addr) = some (VisitNote.PriorSuccess, vs) →
      try_nametags mname addr fn = ⟨some vs, mname, 0, 0⟩) ∧
    (cacheGet mname (hexEncodeBytes addr) = some (VisitNote.PriorFailure, vs) →
      try_nametags mname addr fn = ⟨none, mname, 0, 0⟩) ∧
    (try_nametags mname addr fn).fetches +
      (try_nametags (try_nametags mname addr fn).cache addr gn).fetches ≤ 1 ∧
    (cacheGet mname (hexEncodeBytes addr) = some (VisitNote.PriorFailure, vs) →
      cacheGet (try_nametags mname addr fn).cache (hexEncodeBytes addr) =
        some (VisitNote.PriorFailure, vs)) ∧
    (cacheGet mabi (trimStartMatches0x (hexEncodeBytes addrA)) =
        some (VisitNote.PriorSuccess, w) →
      try_abi mabi addrA fa = ⟨some w, mabi, 0, 0⟩) ∧
    (cacheGet mabi (trimStartMatches0x (hexEncodeBytes addrA)) =
        some (VisitNote.PriorFailure, w) →
      try_abi mabi addrA fa = ⟨none, mabi, 0, 0⟩) ∧
    (try_abi mabi addrA fa).fetches +
      (try_abi (try_abi mabi addrA fa).cache addrA ga).fetches ≤ 1 ∧
    (cacheGet mabi (trimStartMatches0x (hexEncodeBytes addrA)) =
        some (VisitNote.PriorFailure, w) →
      cacheGet (try_abi mabi addrA fa).cache
        (trimStartMatches0x (hexEncodeBytes addrA)) =
        some (VisitNote.PriorFailure, w)) := by
  refine ⟨try_sig_hit_success msig sig v f,
    try_sig_hit_failure msig sig v f, ?_, ?_,
    try_nametags_hit_success mname addr vs fn,
    try_nametags_hit_failure mname addr vs fn, ?_, ?_,
    try_abi_hit_success mabi addrA w fa,
    try_abi_hit_failure mabi addrA w fa, ?_, ?_⟩
  · obtain ⟨p, hp, hterm⟩ := try_sig_terminal_after msig sig f
    have h2 := try_sig_fetches_zero_of_terminal (try_sig msig sig f).cache
      sig g p hp hterm
    have h1 := try_sig_fetches_le_one msig sig f
    omega
  · intro h
    rw [try_sig_hit_failure msig sig v f h]
    exact h
  · obtain ⟨p, hp, hterm⟩ := try_nametags_terminal_after mname addr fn
    have h2 := try_nametags_fetches_zero_of_terminal
      (try_nametags mname addr fn).cache addr gn p hp hterm
    have h1 := try_nametags_fetches_le_one mname addr fn
    omega
  · intro h
    rw [try_nametags_hit_failure mname addr vs fn h]
    exact h
  · obtain ⟨p, hp, hterm⟩ := try_abi_terminal_after mabi addrA fa
    have h2 := try_abi_fetches_zero_of_terminal (try_abi mabi addrA fa).cache
      addrA ga p hp hterm
    have h1 := try_abi_fetches_le_one mabi addrA fa
    omega
  · intro h
    rw [try_abi_hit_failure mabi addrA w fa h]
    exact h

/-- Witness for C1 at concrete inputs: a cached success is returned without
a fetch, and a cached failure is returned as `None` without a retry. -/
theorem claim_C1_cache_memoization_witness :
    try_sig [("e1fffcc4", (VisitNote.PriorSuccess, "Deposit(address,uint256)"))]
        "e1fffcc4" (Except.ok none) =
      ⟨some "Deposit(address,uint256)",
        [("e1fffcc4", (VisitNote.PriorSuccess, "Deposit(address,uint256)"))],
        0, 0⟩ ∧
    try_nametags [("00", (VisitNote.PriorFailure, [""]))] [0]
        (Except.ok ["Weth"]) =
      ⟨none, [("00", (VisitNote.PriorFailure, [""]))], 0, 0⟩ := by
  constructor
  · exact (claim_C1_cache_memoization
      [("e1fffcc4", (VisitNote.PriorSuccess, "Deposit(address,uint256)"))]
      [] [] "e1fffcc4" [0] [0] "Deposit(address,uint256)" [] ""
      (Except.ok none) (Except.ok none) (Except.ok []) (Except.ok [])
      (Except.ok none) (Except.ok none)).1 (by decide)
  · exact (claim_C1_cache_memoization []
      [("00", (VisitNote.PriorFailure, [""]))] [] "e1fffcc4" [0] [0]
      "" [""] "" (Except.ok none) (Except.ok none) (Except.ok ["Weth"])
      (Except.ok []) (Except.ok none) (Except.ok none)).2.2.2.2.2.1
      (by decide)

/-! ## C2: one fetch and one store per miss -/

theorem try_sig_stores_eq_fetches (m : CacheMap String) (k : String)
    (f : Except String (Option String)) :
    (try_sig m k f).stores = (try_sig m k f).fetches := by
  unfold try_sig
  split
  · simp
  · simp
  · split <;> simp

theorem try_nametags_stores_eq_fetches (m : CacheMap (List String))
    (addr : List Nat) (f : Except String (List String)) :
    (try_nametags m addr f).stores = (try_nametags m addr f).fetches := by
  unfold try_nametags
  split
  · simp
  · simp
  · split <;> simp

theorem try_abi_stores_eq_fetches (m : CacheMap String) (addr : List Nat)
    (f : Except String (Option String)) :
    (try_abi m addr f).stores = (try_abi m addr f).fetches := by
  unfold try_abi
  split
  · simp
  · simp
  · split <;> simp

/-- C2 fails on the code for the nametags instantiation: a fetch that finds
no data (the empty list, which the design reads as "not found") is stored
as `(PriorSuccess, [])` and returned as `Some []`, not stored as
`(PriorFailure, sentinel)` and returned as `None`. -/
theorem claim_C2_counterexample :
    try_nametags [] [0] (Except.ok []) =
      ⟨some [], [("00", (VisitNote.PriorSuccess, ([] : List String)))], 1, 1⟩ ∧
    ¬((try_nametags [] [0] (Except.ok [])).result = none ∧
      cacheGet (try_nametags [] [0] (Except.ok [])).cache "00" =
        some (VisitNote.PriorFailure, [""])) := by
  constructor
  · decide
  · decide

/-- C2 (amended): for a key not yet present, each lookup invokes the fetch
and performs exactly one store.  For signatures and abis, a fetch error or
an `Ok` "no data found" stores `(PriorFailure, sentinel)` and returns
`None`, and an `Ok` value stores `(PriorSuccess, value)` and returns it.
For nametags, whose fetch has no "no data" variant, every `Ok` list —
including the empty one — is stored as `(PriorSuccess, list)` and returned;
only a fetch error stores `(PriorFailure, [""])`.  Two stores never happen
for the same key within a run. -/
theorem claim_C2_store_per_miss
    (msig mabi : CacheMap String) (mname : CacheMap (List String))
    (sig e t : String) (addr addrA : List Nat) (ns : List String)
    (f g fa ga : Except String (Option String))
    (fn gn : Except String (List String)) :
    (cacheGet msig sig = none →
      try_sig msig sig (Except.error e) =
        ⟨none, cacheInsert msig sig (VisitNote.PriorFailure, ""), 1, 1⟩ ∧
      try_sig msig sig (Except.ok none) =
        ⟨none, cacheInsert msig sig (VisitNote.PriorFailure, ""), 1, 1⟩ ∧
      try_sig msig sig (Except.ok (some t)) =
        ⟨some t, cacheInsert msig sig (VisitNote.PriorSuccess, t), 1, 1⟩) ∧
    (cacheGet mabi (trimStartMatches0x (hexEncodeBytes addrA)) = none →
      try_abi mabi addrA (Except.error e) =
        ⟨none, cacheInsert mabi (trimStartMatches0x (hexEncodeBytes addrA))
          (VisitNote.PriorFailure, ""), 1, 1⟩ ∧
      try_abi mabi addrA (Except.ok none) =
        ⟨none, cacheInsert mabi (trimStartMatches0x (hexEncodeBytes addrA))
          (VisitNote.PriorFailure, ""), 1, 1⟩ ∧
      try_abi mabi addrA (Except.ok (some t)) =
        ⟨some t, cacheInsert mabi (trimStartMatches0x (hexEncodeBytes addrA))
          (VisitNote.PriorSuccess, t), 1, 1⟩) ∧
    (cacheGet mname (hexEncodeBytes addr) = none →
      try_nametags mname addr (Except.ok ns) =
        ⟨some ns, cacheInsert mname (hexEncodeBytes addr)
          (VisitNote.PriorSuccess, ns), 1, 1⟩ ∧
      try_nametags mname addr (Except.error e) =
        ⟨none, cacheInsert mname (hexEncodeBytes addr)
          (VisitNote.PriorFailure, [""]), 1, 1⟩) ∧
    (try_sig msig sig f).stores +
      (try_sig (try_sig msig sig f).cache sig g).stores ≤ 1 ∧
    (try_abi mabi addrA fa).stores +
      (try_abi (try_abi mabi addrA fa).cache addrA ga).stores ≤ 1 ∧
    (try_nametags mname addr fn).stores +
      (try_nametags (try_nametags mname addr fn).cache addr gn).stores ≤ 1 := by
  refine ⟨?_, ?_, ?_, ?_, ?_, ?_⟩
  · intro h
    exact ⟨by simp [try_sig, h], by simp [try_sig, h], by simp [try_sig, h]⟩
  · intro h
    exact ⟨by simp [try_abi, h], by simp [try_abi, h], by simp [try_abi, h]⟩
  · intro h
    exact ⟨by simp [try_nametags, h], by simp [try_nametags, h]⟩
  · rw [try_sig_stores_eq_fetches, try_sig_stores_eq_fetches]
    obtain ⟨p, hp, hterm⟩ := try_sig_terminal_after msig sig f
    have h2 := try_sig_fetches_zero_of_terminal (try_sig msig sig f).cache
      sig g p hp hterm
    have h1 := try_sig_fetches_le_one msig sig f
    omega
  · rw [try_abi_stores_eq_fetches, try_abi_stores_eq_fetches]
    obtain ⟨p, hp, hterm⟩ := try_abi_terminal_after mabi addrA fa
    have h2 := try_abi_fetches_zero_of_terminal (try_abi mabi addrA fa).cache
      addrA ga p hp hterm
    have h1 := try_abi_fetches_le_one mabi addrA fa
    omega
  · rw [try_nametags_stores_eq_fetches, try_nametags_stores_eq_fetches]
    obtain ⟨p, hp, hterm⟩ := try_nametags_terminal_after mname addr fn
    have h2 := try_nametags_fetches_zero_of_terminal
      (try_nametags mname addr fn).cache addr gn p hp hterm
    have h1 := try_nametags_fetches_le_one mname addr fn
    omega

/-- Witness for the amended C2 at concrete inputs. -/
theorem claim_C2_store_per_miss_witness :
    try_sig [] "e1fffcc4" (Except.ok (some "Deposit(address,uint256)")) =
      ⟨some "Deposit(address,uint256)",
        cacheInsert [] "e1fffcc4"
          (VisitNote.PriorSuccess, "Deposit(address,uint256)"), 1, 1⟩ ∧
    try_nametags [] [0] (Except.error "db fault") =
      ⟨none, cacheInsert [] "00" (VisitNote.PriorFailure, [""]), 1, 1⟩ := by
  constructor
  · exact ((claim_C2_store_per_miss [] [] [] "e1fffcc4" "db fault"
      "Deposit(address,uint256)" [0] [0] [] (Except.ok none) (Except.ok none)
      (Except.ok none) (Except.ok none) (Except.ok []) (Except.ok [])).1
      (by decide)).2.2
  · exact ((claim_C2_store_per_miss [] [] [] "e1fffcc4" "db fault"
      "Deposit(address,uint256)" [0] [0] [] (Except.ok none) (Except.ok none)
      (Except.ok none) (Except.ok none) (Except.ok []) (Except.ok [])).2.2.1
      (by decide)).2

/-! ## C9: `AvoidApis` ABI resolution -/

theorem mem_cacheInsert {α : Type} (m : CacheMap α) (k : String)
    (v : VisitNote × α) (e : String × (VisitNote × α))
    (he : e ∈ cacheInsert m k v) : e = (k, v) ∨ e ∈ m := by
  induction m with
  | nil =>
    simp [cacheInsert] at he
    simp [he]
  | cons e0 rest ih =>
    obtain ⟨k0, v0⟩ := e0
    by_cases hk : k0 = k
    · simp only [cacheInsert, if_pos hk, List.mem_cons] at he
      rcases he with he | he
      · exact Or.inl he
      · exact Or.inr (List.mem_cons_of_mem _ he)
    · simp only [cacheInsert, if_neg hk, List.mem_cons] at he
      rcases he with he | he
      · exact Or.inr (by simp [he])
      · rcases ih he with h1 | h1
        · exact Or.inl h1
        · exact Or.inr (List.mem_cons_of_mem _ h1)

theorem noFailureEntries_insert_success {α : Type} (m : CacheMap α)
    (k : String) (v : α) (h : noFailureEntries m = true) :
    noFailureEntries (cacheInsert m k (VisitNote.PriorSuccess, v)) = true := by
  simp only [noFailureEntries, List.all_eq_true] at h ⊢
  intro e he
  rcases mem_cacheInsert m k (VisitNote.PriorSuccess, v) e he with h1 | h1
  · subst h1
    simp
  · exact h e h1

theorem noFailureEntries_no_failure_hit {α : Type} (m : CacheMap α)
    (k : String) (v : α) (h : noFailureEntries m = true) :
    cacheGet m k ≠ some (VisitNote.PriorFailure, v) := by
  intro hc
  have hmem := cacheGet_mem m k _ hc
  simp only [noFailureEntries, List.all_eq_true] at h
  have := h _ hmem
  simp at this

/-- C9: in `Mode::AvoidApis`, `get_abi` performs no remote call and no
decompilation and always returns the fixed placeholder as a success; hence
`try_abi` backed by it returns `Some` for every address and keeps the
`abis` map free of `PriorFailure` entries (as it is from the start of a
run in that mode). -/
theorem claim_C9_avoidapis (sourcify : Except String (Option String))
    (m : CacheMap String) (addr : List Nat) :
    get_abi Mode.AvoidApis sourcify =
      ⟨Except.ok (some "TODO, get TODD-ABIs"), 0, 0⟩ ∧
    (noFailureEntries m = true →
      (try_abi m addr (get_abi Mode.AvoidApis sourcify).result).result.isSome
        = true ∧
      noFailureEntries
        (try_abi m addr (get_abi Mode.AvoidApis sourcify).result).cache
        = true) := by
  refine ⟨rfl, fun h => ?_⟩
  show (try_abi m addr (Except.ok (some "TODO, get TODD-ABIs"))).result.isSome
      = true ∧ _
  unfold try_abi
  split
  · next v heq => exact ⟨rfl, h⟩
  · next v heq =>
      exact absurd heq (noFailureEntries_no_failure_hit m _ v h)
  · exact ⟨rfl, noFailureEntries_insert_success m _ _ h⟩

/-- Witness for C9 at a concrete address with the run's initial empty map. -/
theorem claim_C9_avoidapis_witness :
    get_abi Mode.AvoidApis (Except.ok none) =
      ⟨Except.ok (some "TODO, get TODD-ABIs"), 0, 0⟩ ∧
    (try_abi [] [0]
        (get_abi Mode.AvoidApis (Except.ok none)).result).result.isSome
      = true := by
  exact ⟨(claim_C9_avoidapis (Except.ok none) [] [0]).1,
    ((claim_C9_avoidapis (Except.ok none) [] [0]).2 (by decide)).1⟩

/-! ## C3: the 4byte candidate check -/

/-- C3 is right about the intent (the function's own doc comment says each
candidate "is hashed and compared to the full 32 byte signature") but the
code does neither: evaluated at the failing input — the short digest
`"e1fffcc4"` with a candidate whose catalogue hash IS the log's full topic
hash — the scan returns `Ok(None)`.  The code compares the candidate
against `hex::encode(topic)`, which hex-encodes the ASCII short-digest
string to `"6531666666636334"`, a 16-char string no 64-char hash can equal;
the full 32-byte topic is not even passed in (`examine_log` keeps only the
first 8 hex chars). -/
theorem claim_C3_fourbyte_rejects_true_match :
    method_from_fourbyte_api "e1fffcc4"
        (Except.ok [(⟨
            "0xe1fffcc40123456789abcdef0123456789abcdef0123456789abcdef01234567",
            "Deposit(address,uint256)"⟩ : FourByteResponse)]) =
      Except.ok none ∧
    trimStartMatches0x
        "0xe1fffcc40123456789abcdef0123456789abcdef0123456789abcdef01234567" =
      "e1fffcc40123456789abcdef0123456789abcdef0123456789abcdef01234567" ∧
    hexEncodeString "e1fffcc4" = "6531666666636334" := by
  exact ⟨rfl, rfl, rfl⟩

/-! ## C4: the Sourcify fallback chain -/

/-- C4 as stated is false: a transport failure on the full-match query does
not lead to a partial-match attempt; it hits `bail!` and the whole ABI
resolution errors, even though the partial-match endpoint would have
answered 200 here. -/
theorem claim_C4_counterexample :
    abi_from_sourcify_api "a/metadata.json"
        (HttpOutcome.fail "connection refused")
        (HttpOutcome.resp 200 (Json.obj [])) =
      Except.error "The request failed for a/metadata.json" ∧
    isOkE (abi_from_sourcify_api "a/metadata.json"
        (HttpOutcome.fail "connection refused")
        (HttpOutcome.resp 200 (Json.obj []))) = false := by
  exact ⟨rfl, rfl⟩

/-- C4 (amended): only a non-success HTTP *status* on the full-match query
falls through to the partial-match endpoint (same path); a transport
failure on either query aborts ABI resolution with an error.  When both
endpoints answer with non-success statuses, the decompilation fallback in
`get_abi` is invoked, never errors, and returns a placeholder marker as a
success. -/
theorem claim_C4_fallback_chain (a : String) (s s2 : Nat) (v v2 : Json)
    (m : String) (p : HttpOutcome) :
    (s ≠ 200 →
      abi_from_sourcify_api a (HttpOutcome.resp s v) p =
        (match p with
         | HttpOutcome.fail _ => Except.error ("The request failed for " ++ a)
         | HttpOutcome.resp st2 b2 =>
           if st2 = 200 then
             Except.ok (some (unwrapSummary (summary_of_abi_from_json b2)))
           else Except.ok none)) ∧
    abi_from_sourcify_api a (HttpOutcome.fail m) p =
      Except.error ("The request failed for " ++ a) ∧
    (s ≠ 200 → s2 ≠ 200 →
      get_abi Mode.UseApis
          (abi_from_sourcify_api a (HttpOutcome.resp s v)
            (HttpOutcome.resp s2 v2)) =
        ⟨Except.ok (some "TODO: Pull decompiled-ABI from file"), 1, 1⟩) := by
  refine ⟨fun hs => ?_, rfl, fun hs hs2 => ?_⟩
  · simp [abi_from_sourcify_api, hs]
  · simp [abi_from_sourcify_api, get_abi, hs, hs2]

/-- Witness for the amended C4: a transport failure errors out, and a
404/404 pair of statuses reaches the decompilation placeholder. -/
theorem claim_C4_fallback_chain_witness :
    abi_from_sourcify_api "a/metadata.json" (HttpOutcome.fail "timeout")
        (HttpOutcome.resp 200 Json.null) =
      Except.error "The request failed for a/metadata.json" ∧
    get_abi Mode.UseApis
        (abi_from_sourcify_api "a/metadata.json"
          (HttpOutcome.resp 404 Json.null) (HttpOutcome.resp 404 Json.null)) =
      ⟨Except.ok (some "TODO: Pull decompiled-ABI from file"), 1, 1⟩ := by
  exact ⟨(claim_C4_fallback_chain "a/metadata.json" 404 404 Json.null
      Json.null "timeout" (HttpOutcome.resp 200 Json.null)).2.1,
    (claim_C4_fallback_chain "a/metadata.json" 404 404 Json.null Json.null
      "timeout" (HttpOutcome.resp 200 Json.null)).2.2 (by decide) (by decide)⟩

/-! ## Pipeline loop lemmas (shared by C5, C6, C8) -/

theorem gtdLoop_none_index (f : Nat → Except String (Option Transaction))
    (txs : List TxInfo) : ∀ i j : Nat,
    gtdLoop f none i txs = gtdLoop f none j txs := by
  induction txs with
  | nil => intro i j; rfl
  | cons tx rest ih =>
    intro i j
    cases hf : f tx.location with
    | error e => simp [gtdLoop, breakAt, hf]
    | ok o =>
      cases o with
      | none => simp [gtdLoop, breakAt, hf]
      | some d => simp [gtdLoop, breakAt, hf, ih (i + 1) (j + 1)]

theorem grLoop_none_index (g : Nat → Except String (Option Receipt))
    (txs : List TxInfo) : ∀ i j : Nat,
    grLoop g none i txs = grLoop g none j txs := by
  induction txs with
  | nil => intro i j; rfl
  | cons tx rest ih =>
    intro i j
    cases hd : tx.description with
    | none => simp [grLoop, breakAt, hd, ih (i + 1) (j + 1)]
    | some d =>
      cases hg : g d.hash with
      | error e => simp [grLoop, breakAt, hd, hg]
      | ok o =>
        cases o with
        | none => simp [grLoop, breakAt, hd, hg]
        | some r => simp [grLoop, breakAt, hd, hg, ih (i + 1) (j + 1)]

theorem dlLoop_none_index (env : Log → LogOracles) (txs : List TxInfo) :
    ∀ (i j : Nat) (c : Cache),
    dlLoop env none i txs c = dlLoop env none j txs c := by
  induction txs with
  | nil => intro i j c; rfl
  | cons tx rest ih =>
    intro i j c
    cases hr : tx.receipt with
    | none => simp [dlLoop, breakAt, hr, ih (i + 1) (j + 1)]
    | some receipt =>
      cases hl : logsLoop env receipt.logs c with
      | error e => simp [dlLoop, breakAt, hr, hl]
      | ok p => simp [dlLoop, breakAt, hr, hl, ih (i + 1) (j + 1)]

theorem gtdLoop_cap_take (f : Nat → Except String (Option Transaction))
    (n : Nat) : ∀ (txs : List TxInfo) (i : Nat),
    gtdLoop f (some n) i txs = gtdLoop f none i (txs.take (n + 1 - i)) := by
  intro txs
  induction txs with
  | nil => intro i; simp [gtdLoop, List.take_nil]
  | cons tx rest ih =>
    intro i
    by_cases hbr : n < i
    · have h0 : n + 1 - i = 0 := by omega
      have hb : breakAt (some n) i = true := by simp [breakAt, hbr]
      rw [h0]
      simp [gtdLoop, hb]
    · have h1 : n + 1 - i = (n - i) + 1 := by omega
      have hb : breakAt (some n) i = false := by simp [breakAt]; omega
      have h2 : n + 1 - (i + 1) = n - i := by omega
      rw [h1, List.take_succ_cons]
      cases hf : f tx.location with
      | error e => simp [gtdLoop, breakAt, hb, hf, hbr]
      | ok o =>
        cases o with
        | none => simp [gtdLoop, breakAt, hb, hf, hbr]
        | some d =>
          have ih2 := ih (i + 1)
          rw [h2] at ih2
          simp [gtdLoop, breakAt, hb, hf, hbr, ih2]

theorem grLoop_cap_take (g : Nat → Except String (Option Receipt))
    (n : Nat) : ∀ (txs : List TxInfo) (i : Nat),
    grLoop g (some n) i txs = grLoop g none i (txs.take (n + 1 - i)) := by
  intro txs
  induction txs with
  | nil => intro i; simp [grLoop, List.take_nil]
  | cons tx rest ih =>
    intro i
    by_cases hbr : n < i
    · have h0 : n + 1 - i = 0 := by omega
      have hb : breakAt (some n) i = true := by simp [breakAt, hbr]
      rw [h0]
      simp [grLoop, hb]
    · have h1 : n + 1 - i = (n - i) + 1 := by omega
      have hb : breakAt (some n) i = false := by simp [breakAt]; omega
      have h2 : n + 1 - (i + 1) = n - i := by omega
      have ih2 := ih (i + 1)
      rw [h2] at ih2
      rw [h1, List.take_succ_cons]
      cases hd : tx.description with
      | none => simp [grLoop, breakAt, hb, hd, hbr, ih2]
      | some d =>
        cases hg : g d.hash with
        | error e => simp [grLoop, breakAt, hb, hd, hg, hbr]
        | ok o =>
          cases o with
          | none => simp [grLoop, breakAt, hb, hd, hg, hbr]
          | some r => simp [grLoop, breakAt, hb, hd, hg, hbr, ih2]

theorem dlLoop_cap_take (env : Log → LogOracles) (n : Nat) :
    ∀ (txs : List TxInfo) (i : Nat) (c : Cache),
    dlLoop env (some n) i txs c =
      dlLoop env none i (txs.take (n + 1 - i)) c := by
  intro txs
  induction txs with
  | nil => intro i c; simp [dlLoop, List.take_nil]
  | cons tx rest ih =>
    intro i c
    by_cases hbr : n < i
    · have h0 : n + 1 - i = 0 := by omega
      have hb : breakAt (some n) i = true := by simp [breakAt, hbr]
      rw [h0]
      simp [dlLoop, hb]
    · have h1 : n + 1 - i = (n - i) + 1 := by omega
      have hb : breakAt (some n) i = false := by simp [breakAt]; omega
      have h2 : n + 1 - (i + 1) = n - i := by omega
      have ih2 : ∀ c' : Cache, dlLoop env (some n) (i + 1) rest c' =
          dlLoop env none (i + 1) (rest.take (n - i)) c' := by
        intro c'
        have := ih (i + 1) c'
        rwa [h2] at this
      rw [h1, List.take_succ_cons]
      cases hr : tx.receipt with
      | none => simp [dlLoop, breakAt, hb, hr, hbr, ih2]
      | some receipt =>
        cases hl : logsLoop env receipt.logs c with
        | error e => simp [dlLoop, breakAt, hb, hr, hl, hbr]
        | ok p => simp [dlLoop, breakAt, hb, hr, hl, hbr, ih2]

theorem get_transaction_data_cap_take
    (f : Nat → Except String (Option Transaction)) (n : Nat)
    (h : AddressHistory) :
    get_transaction_data f (some n) h =
      get_transaction_data f none
        { h with transactions := h.transactions.take (n + 1) } := by
  unfold get_transaction_data
  rw [gtdLoop_cap_take f n h.transactions 0]
  rfl

theorem get_receipts_cap_take (g : Nat → Except String (Option Receipt))
    (n : Nat) (h : AddressHistory) :
    get_receipts g (some n) h =
      get_receipts g none
        { h with transactions := h.transactions.take (n + 1) } := by
  unfold get_receipts
  rw [grLoop_cap_take g n h.transactions 0]
  rfl

theorem decode_logs_cap_take (env : Log → LogOracles) (n : Nat)
    (h : AddressHistory) :
    decode_logs env (some n) h =
      decode_logs env none
        { h with transactions := h.transactions.take (n + 1) } := by
  unfold decode_logs
  rw [dlLoop_cap_take env n h.transactions 0]
  rfl

theorem gtdLoop_ok_shape (f : Nat → Except String (Option Transaction))
    (cap : Option Nat) : ∀ (txs : List TxInfo) (i : Nat) (l : List TxInfo),
    gtdLoop f cap i txs = Except.ok l →
      l.length ≤ txs.length ∧
      ∀ t ∈ l, t.location ∈ txs.map TxInfo.location ∧
        t.description.isSome = true := by
  intro txs
  induction txs with
  | nil =>
    intro i l h
    simp [gtdLoop] at h
    subst h
    simp
  | cons tx rest ih =>
    intro i l h
    cases hbv : breakAt cap i with
    | true =>
      simp [gtdLoop, hbv] at h
      subst h
      simp
    | false =>
      cases hf : f tx.location with
      | error e => simp [gtdLoop, hbv, hf] at h
      | ok o =>
        cases o with
        | none => simp [gtdLoop, hbv, hf] at h
        | some d =>
          cases hr : gtdLoop f cap (i + 1) rest with
          | error e => simp [gtdLoop, hbv, hf, hr] at h
          | ok lr =>
            simp [gtdLoop, hbv, hf, hr] at h
            subst h
            obtain ⟨hlen, hmem⟩ := ih (i + 1) lr hr
            refine ⟨by simp; omega, ?_⟩
            intro t ht
            rcases List.mem_cons.mp ht with h1 | h1
            · subst h1
              simp
            · obtain ⟨hm1, hm2⟩ := hmem t h1
              exact ⟨by simp [List.mem_cons]; right; simpa using hm1, hm2⟩

theorem grLoop_ok_shape (g : Nat → Except String (Option Receipt))
    (cap : Option Nat) : ∀ (txs : List TxInfo) (i : Nat) (l : List TxInfo),
    grLoop g cap i txs = Except.ok l →
      l.length ≤ txs.length ∧
      ∀ t ∈ l, t.location ∈ txs.map TxInfo.location ∧
        t.receipt.isSome = true := by
  intro txs
  induction txs with
  | nil =>
    intro i l h
    simp [grLoop] at h
    subst h
    simp
  | cons tx rest ih =>
    intro i l h
    cases hbv : breakAt cap i with
    | true =>
      simp [grLoop, hbv] at h
      subst h
      simp
    | false =>
      cases hd : tx.description with
      | none =>
        simp only [grLoop, hbv, Bool.false_eq_true, if_false, hd] at h
        obtain ⟨hlen, hmem⟩ := ih (i + 1) l h
        refine ⟨by simp; omega, ?_⟩
        intro t ht
        obtain ⟨hm1, hm2⟩ := hmem t ht
        exact ⟨by simp [List.mem_cons]; right; simpa using hm1, hm2⟩
      | some d =>
        cases hg : g d.hash with
        | error e => simp [grLoop, hbv, hd, hg] at h
        | ok o =>
          cases o with
          | none => simp [grLoop, hbv, hd, hg] at h
          | some r =>
            cases hr : grLoop g cap (i + 1) rest with
            | error e => simp [grLoop, hbv, hd, hg, hr] at h
            | ok lr =>
              simp [grLoop, hbv, hd, hg, hr] at h
              subst h
              obtain ⟨hlen, hmem⟩ := ih (i + 1) lr hr
              refine ⟨by simp; omega, ?_⟩
              intro t ht
              rcases List.mem_cons.mp ht with h1 | h1
              · subst h1
                simp
              · obtain ⟨hm1, hm2⟩ := hmem t h1
                exact ⟨by simp [List.mem_cons]; right; simpa using hm1, hm2⟩

theorem dlLoop_ok_shape (env : Log → LogOracles) (cap : Option Nat) :
    ∀ (txs : List TxInfo) (i : Nat) (c : Cache) (l : List TxInfo)
      (cOut : Cache),
    dlLoop env cap i txs c = Except.ok (l, cOut) →
      l.length ≤ txs.length ∧
      ∀ t ∈ l, t.location ∈ txs.map TxInfo.location ∧
        t.events.isSome = true := by
  intro txs
  induction txs with
  | nil =>
    intro i c l cOut h
    simp [dlLoop] at h
    obtain ⟨h1, h2⟩ := h
    subst h1
    simp
  | cons tx rest ih =>
    intro i c l cOut h
    cases hbv : breakAt cap i with
    | true =>
      simp [dlLoop, hbv] at h
      obtain ⟨h1, h2⟩ := h
      subst h1
      simp
    | false =>
      cases hrc : tx.receipt with
      | none =>
        simp only [dlLoop, hbv, Bool.false_eq_true, if_false, hrc] at h
        obtain ⟨hlen, hmem⟩ := ih (i + 1) c l cOut h
        refine ⟨by simp; omega, ?_⟩
        intro t ht
        obtain ⟨hm1, hm2⟩ := hmem t ht
        exact ⟨by simp [List.mem_cons]; right; simpa using hm1, hm2⟩
      | some receipt =>
        cases hl : logsLoop env receipt.logs c with
        | error e => simp [dlLoop, hbv, hrc, hl] at h
        | ok p =>
          cases hr : dlLoop env cap (i + 1) rest p.2 with
          | error e =>
            simp [dlLoop, hbv, hrc, hl, hr] at h
          | ok q =>
            simp [dlLoop, hbv, hrc, hl, hr] at h
            obtain ⟨h1, h2⟩ := h
            subst h1
            obtain ⟨hlen, hmem⟩ := ih (i + 1) p.2 q.1 q.2 (by rw [hr])
            refine ⟨by simp; omega, ?_⟩
            intro t ht
            rcases List.mem_cons.mp ht with h1 | h1
            · subst h1
              simp
            · obtain ⟨hm1, hm2⟩ := hmem t h1
              exact ⟨by simp [List.mem_cons]; right; simpa using hm1, hm2⟩

/-- C5: every pipeline stage called with `cap_num = Some(n)` processes
exactly the items at indices `0` through `n` inclusive of its input (the
`i > cap` boundary): the capped stage coincides with the uncapped stage run
on the `take (n+1)` prefix of the state, for all three stages; and
concretely, with 5 transaction ids and `cap_num = Some(1)` exactly the
first 2 items (indices 0 and 1) are fetched and kept. -/
theorem claim_C5_cap_boundary
    (f : Nat → Except String (Option Transaction))
    (g : Nat → Except String (Option Receipt))
    (env : Log → LogOracles) (n : Nat) (h : AddressHistory) :
    get_transaction_data f (some n) h =
      get_transaction_data f none
        { h with transactions := h.transactions.take (n + 1) } ∧
    get_receipts g (some n) h =
      get_receipts g none
        { h with transactions := h.transactions.take (n + 1) } ∧
    decode_logs env (some n) h =
      decode_logs env none
        { h with transactions := h.transactions.take (n + 1) } ∧
    get_transaction_data (fun loc => Except.ok (some ⟨loc⟩)) (some 1)
        ⟨[⟨10, none, none, none⟩, ⟨11, none, none, none⟩,
          ⟨12, none, none, none⟩, ⟨13, none, none, none⟩,
          ⟨14, none, none, none⟩], ⟨[], [], []⟩⟩ =
      Except.ok ⟨[⟨10, some ⟨10⟩, none, none⟩, ⟨11, some ⟨11⟩, none, none⟩],
        ⟨[], [], []⟩⟩ :=
  ⟨get_transaction_data_cap_take f n h, get_receipts_cap_take g n h,
    decode_logs_cap_take env n h, rfl⟩

/-- C8: a stage run with `cap_num = Some(n)` replaces the state's
`transactions` with only the items it iterated over: at most `n+1` of them,
each originating from the `take (n+1)` prefix of the old list and carrying
the stage's enrichment (a body, a receipt, an events list respectively) —
items beyond the cap boundary are gone from the state, not retained
unenriched. -/
theorem claim_C8_cap_prunes_state
    (f : Nat → Except String (Option Transaction))
    (g : Nat → Except String (Option Receipt))
    (env : Log → LogOracles) (n : Nat) (h : AddressHistory) :
    (∀ h', get_transaction_data f (some n) h = Except.ok h' →
      h'.transactions.length ≤ n + 1 ∧
      ∀ t ∈ h'.transactions,
        t.location ∈ (h.transactions.take (n + 1)).map TxInfo.location ∧
        t.description.isSome = true) ∧
    (∀ h', get_receipts g (some n) h = Except.ok h' →
      h'.transactions.length ≤ n + 1 ∧
      ∀ t ∈ h'.transactions,
        t.location ∈ (h.transactions.take (n + 1)).map TxInfo.location ∧
        t.receipt.isSome = true) ∧
    (∀ h', decode_logs env (some n) h = Except.ok h' →
      h'.transactions.length ≤ n + 1 ∧
      ∀ t ∈ h'.transactions,
        t.location ∈ (h.transactions.take (n + 1)).map TxInfo.location ∧
        t.events.isSome = true) := by
  refine ⟨?_, ?_, ?_⟩
  · intro h' heq
    rw [get_transaction_data_cap_take] at heq
    unfold get_transaction_data at heq
    cases hr : gtdLoop f none 0 (h.transactions.take (n + 1)) with
    | error e => rw [hr] at heq; cases heq
    | ok txs =>
      rw [hr] at heq
      cases heq
      obtain ⟨hlen, hmem⟩ := gtdLoop_ok_shape f none _ 0 txs hr
      constructor
      · show txs.length ≤ n + 1
        have h2 := List.length_take (n + 1) h.transactions
        omega
      · exact hmem
  · intro h' heq
    rw [get_receipts_cap_take] at heq
    unfold get_receipts at heq
    cases hr : grLoop g none 0 (h.transactions.take (n + 1)) with
    | error e => rw [hr] at heq; cases heq
    | ok txs =>
      rw [hr] at heq
      cases heq
      obtain ⟨hlen, hmem⟩ := grLoop_ok_shape g none _ 0 txs hr
      constructor
      · show txs.length ≤ n + 1
        have h2 := List.length_take (n + 1) h.transactions
        omega
      · exact hmem
  · intro h' heq
    rw [decode_logs_cap_take] at heq
    unfold decode_logs at heq
    cases hr : dlLoop env none 0 (h.transactions.take (n + 1)) h.cache with
    | error e => rw [hr] at heq; cases heq
    | ok p =>
      rw [hr] at heq
      cases heq
      obtain ⟨hlen, hmem⟩ := dlLoop_ok_shape env none _ 0 h.cache p.1 p.2
        (by rw [hr])
      constructor
      · show p.1.length ≤ n + 1
        have h2 := List.length_take (n + 1) h.transactions
        omega
      · exact hmem

/-- Witness for C8: with 3 transaction ids and `cap_num = Some(0)`, the
state afterwards holds exactly one enriched item. -/
theorem claim_C8_cap_prunes_state_witness :
    (⟨[⟨10, some ⟨10⟩, none, none⟩], ⟨[], [], []⟩⟩ :
        AddressHistory).transactions.length ≤ 0 + 1 := by
  refine ((claim_C8_cap_prunes_state (fun loc => Except.ok (some ⟨loc⟩))
      (fun _ => Except.ok none) (fun _ => ⟨Except.ok [], Except.ok none,
        Except.ok none, Except.ok none, Except.ok []⟩) 0
      ⟨[⟨10, none, none, none⟩, ⟨11, none, none, none⟩,
        ⟨12, none, none, none⟩], ⟨[], [], []⟩⟩).1
    ⟨[⟨10, some ⟨10⟩, none, none⟩], ⟨[], [], []⟩⟩ rfl).1

/-! ## C6: skip on missing prerequisite vs hard error on missing data -/

theorem grLoop_skip (g : Nat → Except String (Option Receipt)) (tx0 : TxInfo)
    (h0 : tx0.description = none) :
    ∀ (pre post : List TxInfo) (i : Nat),
    grLoop g none i (pre ++ tx0 :: post) = grLoop g none i (pre ++ post) := by
  intro pre
  induction pre with
  | nil =>
    intro post i
    simp only [List.nil_append]
    have h1 : grLoop g none i (tx0 :: post) = grLoop g none (i + 1) post := by
      simp [grLoop, breakAt, h0]
    rw [h1]
    exact grLoop_none_index g post (i + 1) i
  | cons p pre' ih =>
    intro post i
    cases hd : p.description with
    | none =>
      simp only [List.cons_append]
      simp [grLoop, breakAt, hd]
      exact ih post (i + 1)
    | some d =>
      cases hg : g d.hash with
      | error e => simp [grLoop, breakAt, hd, hg]
      | ok o =>
        cases o with
        | none => simp [grLoop, breakAt, hd, hg]
        | some r => simp [grLoop, breakAt, hd, hg, ih post (i + 1)]

theorem dlLoop_skip (env : Log → LogOracles) (tx0 : TxInfo)
    (h0 : tx0.receipt = none) :
    ∀ (pre post : List TxInfo) (i : Nat) (c : Cache),
    dlLoop env none i (pre ++ tx0 :: post) c =
      dlLoop env none i (pre ++ post) c := by
  intro pre
  induction pre with
  | nil =>
    intro post i c
    simp only [List.nil_append]
    have h1 : dlLoop env none i (tx0 :: post) c =
        dlLoop env none (i + 1) post c := by
      simp [dlLoop, breakAt, h0]
    rw [h1]
    exact dlLoop_none_index env post (i + 1) i c
  | cons p pre' ih =>
    intro post i c
    cases hr : p.receipt with
    | none =>
      simp only [List.cons_append]
      simp [dlLoop, breakAt, hr]
      exact ih post (i + 1) c
    | some receipt =>
      cases hl : logsLoop env receipt.logs c with
      | error e => simp [dlLoop, breakAt, hr, hl]
      | ok pair => simp [dlLoop, breakAt, hr, hl, ih post (i + 1) pair.2]

theorem gtdLoop_hard_error (f : Nat → Except String (Option Transaction))
    (tx0 : TxInfo) (h0 : f tx0.location = Except.ok none) :
    ∀ (pre rest : List TxInfo) (i : Nat),
    (∀ p ∈ pre, ∃ d, f p.location = Except.ok (some d)) →
    gtdLoop f none i (pre ++ tx0 :: rest) =
      Except.error "No data for this transaction id." := by
  intro pre
  induction pre with
  | nil => intro rest i hpre; simp [gtdLoop, breakAt, h0]
  | cons p pre' ih =>
    intro rest i hpre
    obtain ⟨d, hd⟩ := hpre p (List.mem_cons_self _ _)
    have hrec := ih rest (i + 1) (fun q hq => hpre q (List.mem_cons_of_mem _ hq))
    simp [gtdLoop, breakAt, hd, hrec]

theorem grLoop_hard_error (g : Nat → Except String (Option Receipt))
    (tx0 : TxInfo) (d0 : Transaction) (h0 : tx0.description = some d0)
    (h1 : g d0.hash = Except.ok none) :
    ∀ (pre rest : List TxInfo) (i : Nat),
    (∀ p ∈ pre, p.description = none ∨
      ∃ d r, p.description = some d ∧ g d.hash = Except.ok (some r)) →
    grLoop g none i (pre ++ tx0 :: rest) =
      Except.error "No receipt for this transaction hash." := by
  intro pre
  induction pre with
  | nil => intro rest i hpre; simp [grLoop, breakAt, h0, h1]
  | cons p pre' ih =>
    intro rest i hpre
    have hrec := ih rest (i + 1) (fun q hq => hpre q (List.mem_cons_of_mem _ hq))
    rcases hpre p (List.mem_cons_self _ _) with hd | ⟨d, r, hd, hg⟩
    · simp [grLoop, breakAt, hd, hrec]
    · simp [grLoop, breakAt, hd, hg, hrec]

/-- C6: inside a stage, an item missing the prerequisite produced by a
prior stage (no body in `get_receipts`, no receipt in `decode_logs`) is
skipped — the stage result is the same as if the item were absent — while
an RPC answer of "no data" for an item that must exist (body for a known
id, receipt for a known hash) is a hard error that aborts the whole stage. -/
theorem claim_C6_skip_vs_hard_error
    (f : Nat → Except String (Option Transaction))
    (g : Nat → Except String (Option Receipt))
    (env : Log → LogOracles) (tx0 : TxInfo) (d0 : Transaction)
    (pre post : List TxInfo) (c : Cache) :
    (tx0.description = none →
      get_receipts g none ⟨pre ++ tx0 :: post, c⟩ =
        get_receipts g none ⟨pre ++ post, c⟩) ∧
    (tx0.receipt = none →
      decode_logs env none ⟨pre ++ tx0 :: post, c⟩ =
        decode_logs env none ⟨pre ++ post, c⟩) ∧
    ((∀ p ∈ pre, ∃ d, f p.location = Except.ok (some d)) →
      f tx0.location = Except.ok none →
      get_transaction_data f none ⟨pre ++ tx0 :: post, c⟩ =
        Except.error "No data for this transaction id.") ∧
    ((∀ p ∈ pre, p.description = none ∨
        ∃ d r, p.description = some d ∧ g d.hash = Except.ok (some r)) →
      tx0.description = some d0 → g d0.hash = Except.ok none →
      get_receipts g none ⟨pre ++ tx0 :: post, c⟩ =
        Except.error "No receipt for this transaction hash.") := by
  refine ⟨fun h0 => ?_, fun h0 => ?_, fun hpre h0 => ?_, fun hpre h0 h1 => ?_⟩
  · unfold get_receipts
    rw [show (⟨pre ++ tx0 :: post, c⟩ : AddressHistory).transactions =
      pre ++ tx0 :: post from rfl]
    rw [grLoop_skip g tx0 h0 pre post 0]
  · unfold decode_logs
    rw [show (⟨pre ++ tx0 :: post, c⟩ : AddressHistory).transactions =
      pre ++ tx0 :: post from rfl]
    rw [dlLoop_skip env tx0 h0 pre post 0 c]
  · unfold get_transaction_data
    rw [show (⟨pre ++ tx0 :: post, c⟩ : AddressHistory).transactions =
      pre ++ tx0 :: post from rfl]
    rw [gtdLoop_hard_error f tx0 h0 pre post 0 hpre]
  · unfold get_receipts
    rw [show (⟨pre ++ tx0 :: post, c⟩ : AddressHistory).transactions =
      pre ++ tx0 :: post from rfl]
    rw [grLoop_hard_error g tx0 d0 h0 h1 pre post 0 hpre]

/-- Witness for C6: one item with no body is skipped by `get_receipts`,
and an RPC "no data" for a known id aborts `get_transaction_data`. -/
theorem claim_C6_skip_vs_hard_error_witness :
    get_receipts (fun _ => Except.ok none) none
        ⟨[⟨5, none, none, none⟩], ⟨[], [], []⟩⟩ =
      get_receipts (fun _ => Except.ok none) none ⟨[], ⟨[], [], []⟩⟩ ∧
    get_transaction_data (fun _ => Except.ok none) none
        ⟨[⟨5, none, none, none⟩], ⟨[], [], []⟩⟩ =
      Except.error "No data for this transaction id." := by
  refine ⟨?_, ?_⟩
  · exact (claim_C6_skip_vs_hard_error (fun _ => Except.ok none)
      (fun _ => Except.ok none)
      (fun _ => ⟨Except.ok [], Except.ok none, Except.ok none,
        Except.ok none, Except.ok []⟩)
      ⟨5, none, none, none⟩ ⟨0⟩ [] [] ⟨[], [], []⟩).1 rfl
  · exact (claim_C6_skip_vs_hard_error (fun _ => Except.ok none)
      (fun _ => Except.ok none)
      (fun _ => ⟨Except.ok [], Except.ok none, Except.ok none,
        Except.ok none, Except.ok []⟩)
      ⟨5, none, none, none⟩ ⟨0⟩ [] [] ⟨[], [], []⟩).2.2.1
      (by simp) rfl

/-! ## C7: anonymous logs -/

/-- C7: a log whose topics list is empty produces no event and no error:
`examine_log` returns `Ok(None)` with the cache untouched and zero
`eth_getCode` calls and zero signature/abi/nametag fetches, and the
per-receipt log loop carries on with the remaining logs unchanged. -/
theorem claim_C7_anonymous_log_skipped (addr : List Nat) (o : LogOracles)
    (env : Log → LogOracles) (rest : List Log) (c : Cache) :
    examine_log ⟨addr, []⟩ o c = ⟨Except.ok none, c, 0, 0, 0, 0⟩ ∧
    logsLoop env (⟨addr, []⟩ :: rest) c = logsLoop env rest c :=
  ⟨rfl, rfl⟩

/-! ## C10: totality of `summary_of_abi_from_json` -/

theorem digitVal_digitChar (d : Nat) (h : d < 10) :
    digitVal (digitChar d) = some d := by
  interval_cases d <;> rfl

theorem parseDecimal_append (cs : List Char) (c : Char) :
    parseDecimal (cs ++ [c]) =
      match parseDecimal cs, digitVal c with
      | some a, some d => some (a * 10 + d)
      | _, _ => none := by
  simp [parseDecimal, List.foldl_append]

theorem natDigits_ne_nil (n : Nat) : natDigits n ≠ [] := by
  unfold natDigits
  split <;> simp

theorem parseDecimal_natDigits (n : Nat) :
    parseDecimal (natDigits n) = some n := by
  induction n using Nat.strong_induction_on with
  | _ n ih =>
    by_cases h : n < 10
    · unfold natDigits
      rw [dif_pos h]
      simp [parseDecimal, digitVal_digitChar n h]
    · unfold natDigits
      rw [dif_neg h]
      rw [parseDecimal_append]
      rw [ih (n / 10) (Nat.div_lt_self (by omega) (by omega))]
      rw [digitVal_digitChar (n % 10) (Nat.mod_lt _ (by omega))]
      simp
      omega

theorem natDigits_head (n : Nat) : ∀ c cs, natDigits n = c :: cs → n ≠ 0 →
    c ≠ '0' ∧ c ≠ '+' := by
  induction n using Nat.strong_induction_on with
  | _ n ih =>
    intro c cs heq hn
    by_cases h : n < 10
    · unfold natDigits at heq
      rw [dif_pos h] at heq
      injection heq with h1 h2
      subst h1
      interval_cases n
      · exact absurd rfl hn
      all_goals exact ⟨by decide, by decide⟩
    · unfold natDigits at heq
      rw [dif_neg h] at heq
      obtain ⟨c', cs', hds⟩ : ∃ c' cs', natDigits (n / 10) = c' :: cs' := by
        cases hd : natDigits (n / 10) with
        | nil => exact absurd hd (natDigits_ne_nil _)
        | cons x xs => exact ⟨x, xs, rfl⟩
      rw [hds] at heq
      simp only [List.cons_append] at heq
      injection heq with h1 h2
      have hd10 : n / 10 ≠ 0 := by
        have := Nat.div_pos (by omega : 10 ≤ n) (by omega : 0 < 10)
        omega
      have hres := ih (n / 10) (Nat.div_lt_self (by omega) (by omega))
        c' cs' hds hd10
      rw [h1] at hres
      exact hres

theorem parseIndex_natToString (n : Nat) :
    parseIndex (natToString n) = some n := by
  by_cases hn : n = 0
  · subst hn
    have h0 : natDigits 0 = [digitChar 0] := by
      unfold natDigits
      norm_num
    unfold parseIndex natToString
    rw [show (String.mk (natDigits 0)).data = natDigits 0 from rfl, h0]
    decide
  · obtain ⟨c, cs, hds⟩ : ∃ c cs, natDigits n = c :: cs := by
      cases hd : natDigits n with
      | nil => exact absurd hd (natDigits_ne_nil _)
      | cons x xs => exact ⟨x, xs, rfl⟩
    obtain ⟨hc0, hcp⟩ := natDigits_head n c cs hds hn
    unfold parseIndex natToString
    rw [show (String.mk (natDigits n)).data = natDigits n from rfl, hds]
    show (if c = '+' then none
      else if c = '0' ∧ cs ≠ [] then none
      else parseDecimal (c :: cs)) = some n
    rw [if_neg hcp, if_neg (by intro hand; exact hc0 hand.1), ← hds,
      parseDecimal_natDigits]

theorem indexStr_spec (v : Json) (key : String)
    (h : indexStr v key ≠ Json.null) :
    ∃ fields, v = Json.obj fields ∧
      objLookup fields key = some (indexStr v key) := by
  cases v with
  | obj fields =>
    cases hl : objLookup fields key with
    | none => exact absurd (by simp [indexStr, hl]) h
    | some x => exact ⟨fields, rfl, by simp [indexStr, hl]⟩
  | null => exact absurd rfl h
  | bool b => exact absurd rfl h
  | num i => exact absurd rfl h
  | str s => exact absurd rfl h
  | arr xs => exact absurd rfl h

theorem abi_pointer_ok (metadata : Json) (a : List Json) (k : Nat)
    (harr : indexStr (indexStr metadata "output") "abi" = Json.arr a)
    (hk : k < a.length) :
    ∃ func, pointerNav metadata ["output", "abi", natToString k] =
      some func := by
  have h2 : indexStr (indexStr metadata "output") "abi" ≠ Json.null := by
    rw [harr]
    intro hc
    cases hc
  obtain ⟨fields2, hv2, hlook2⟩ :=
    indexStr_spec (indexStr metadata "output") "abi" h2
  have h1 : indexStr metadata "output" ≠ Json.null := by
    rw [hv2]
    intro hc
    cases hc
  obtain ⟨fields1, hv1, hlook1⟩ := indexStr_spec metadata "output" h1
  obtain ⟨elem, helem⟩ : ∃ e, a.get? k = some e :=
    ⟨a.get ⟨k, hk⟩, List.get?_eq_get hk⟩
  have harr2 : indexStr (Json.obj fields2) "abi" = Json.arr a := by
    rw [← hv2]
    exact harr
  refine ⟨elem, ?_⟩
  rw [hv1]
  simp only [pointerNav, hlook1, hv2, hlook2, harr, harr2,
    parseIndex_natToString, helem]

theorem summaryLoop_isOk (metadata : Json) : ∀ (ns : List Nat) (acc : String),
    (∀ n ∈ ns,
      (pointerNav metadata ["output", "abi", natToString n]).isSome = true) →
    isOkE (summaryLoop metadata acc ns) = true := by
  intro ns
  induction ns with
  | nil => intro acc h; rfl
  | cons n rest ih =>
    intro acc h
    have hn := h n (List.mem_cons_self _ _)
    rw [Option.isSome_iff_exists] at hn
    obtain ⟨func, hf⟩ := hn
    simp only [summaryLoop, hf]
    exact ih _ (fun q hq => h q (List.mem_cons_of_mem _ hq))

theorem summary_isOk (metadata : Json) :
    isOkE (summary_of_abi_from_json metadata) = true := by
  unfold summary_of_abi_from_json
  apply summaryLoop_isOk
  intro n hn
  rw [List.mem_range] at hn
  unfold abiArrayLen at hn
  cases hm : indexStr (indexStr metadata "output") "abi" with
  | arr a =>
    rw [hm] at hn
    rw [Option.isSome_iff_exists]
    exact abi_pointer_ok metadata a n hm hn
  | null => rw [hm] at hn; simp at hn
  | bool b => rw [hm] at hn; simp at hn
  | num i => rw [hm] at hn; simp at hn
  | str s => rw [hm] at hn; simp at hn
  | obj fs => rw [hm] at hn; simp at hn

/-- C10: `summary_of_abi_from_json` returns `Ok` for every JSON input; with
no `output`/`abi` array the summary is just the contract-name line; for an
`abi` array of length `n` every pointer lookup at an index below `n`
succeeds; hence the `.unwrap()` applied to the result inside
`abi_from_sourcify_api` can never panic. -/
theorem claim_C10_summary_total (metadata : Json) :
    isOkE (summary_of_abi_from_json metadata) = true ∧
    ((∀ xs : List Json,
        indexStr (indexStr metadata "output") "abi" ≠ Json.arr xs) →
      summary_of_abi_from_json metadata =
        Except.ok ("Contract: " ++
          renderJson (indexStr (indexStr metadata "settings")
            "compilationTarget"))) ∧
    (∀ (a : List Json) (k : Nat),
      indexStr (indexStr metadata "output") "abi" = Json.arr a →
      k < a.length →
      (pointerNav metadata ["output", "abi", natToString k]).isSome = true) ∧
    Except.ok (unwrapSummary (summary_of_abi_from_json metadata)) =
      summary_of_abi_from_json metadata := by
  refine ⟨summary_isOk metadata, fun hno => ?_, fun a k harr hk => ?_, ?_⟩
  · have hlen : abiArrayLen metadata = 0 := by
      unfold abiArrayLen
      cases hm : indexStr (indexStr metadata "output") "abi" with
      | arr xs => exact absurd hm (hno xs)
      | null => rfl
      | bool b => rfl
      | num i => rfl
      | str s => rfl
      | obj fs => rfl
    unfold summary_of_abi_from_json
    rw [hlen]
    rfl
  · rw [Option.isSome_iff_exists]
    exact abi_pointer_ok metadata a k harr hk
  · have h := summary_isOk metadata
    cases hs : summary_of_abi_from_json metadata with
    | ok s => rfl
    | error e => rw [hs] at h; simp [isOkE] at h

/-- Concrete metadata document used by the C10 witness: a settings section
with a compilation target and a one-entry abi array. -/
def sampleMetadata : Json :=
  Json.obj [("settings", Json.obj [("compilationTarget",
      Json.obj [("WETH9.sol", Json.str "WETH9")])]),
    ("output", Json.obj [("abi", Json.arr [Json.obj [
      ("type", Json.str "function"), ("name", Json.str "name")]])])]

/-- Witness for C10: the sample document summarises to `Ok` with a
successful pointer lookup at index 0, a document with no abi array yields
the bare contract-name line, and the unwrap is safe. -/
theorem claim_C10_summary_total_witness :
    isOkE (summary_of_abi_from_json sampleMetadata) = true ∧
    (pointerNav sampleMetadata ["output", "abi", natToString 0]).isSome
      = true ∧
    summary_of_abi_from_json Json.null =
      Except.ok ("Contract: " ++
        renderJson (indexStr (indexStr Json.null "settings")
          "compilationTarget")) ∧
    Except.ok (unwrapSummary (summary_of_abi_from_json sampleMetadata)) =
      summary_of_abi_from_json sampleMetadata := by
  refine ⟨(claim_C10_summary_total sampleMetadata).1,
    (claim_C10_summary_total sampleMetadata).2.2.1
      [Json.obj [("type", Json.str "function"), ("name", Json.str "name")]]
      0 rfl (by decide),
    (claim_C10_summary_total Json.null).2.1
      (fun xs hc => Json.noConfusion hc),
    (claim_C10_summary_total sampleMetadata).2.2.2⟩

end PSR
